import Mathlib

/-!
Shallow embedding of `src/postfix/local/alias.c`: the alias-resolution core
`deliver_alias` of a local mail-delivery agent, together with its helper
`dict_owner`.  External collaborators (dictionary lookups, the password
database, address canonicalization, the token-string delivery dispatcher)
are supplied through an environment record of pure functions.  The dispatch
calls and dictionary probes performed by a run are recorded in the result so
that theorems can speak about "exactly once" and "never consulted".
-/

namespace LocalAlias

/-- Result of a single dictionary probe.  In the C source `dict_lookup`
returns a string or null and sets the global `dict_errno`: `found`
corresponds to a non-null result, `notFound` to a null result with
`dict_errno = 0`, and `err` to a null result with `dict_errno != 0`
(source unavailable). -/
inductive LookupResult where
  | found : String → LookupResult
  | notFound : LookupResult
  | err : LookupResult
deriving DecidableEq

/-- Password-database entry, as returned by `mypwuid` (mypwd.h). -/
structure Mypasswd where
  pw_name : String
  pw_uid : Nat
  pw_gid : Nat
  pw_dir : String
deriving DecidableEq

/-- Modelled from the spec: the expansion-type tag kept in the delivery
attributes (`EXPAND_TYPE_ALIAS` and friends from `local.h`, which is not
under `src/`): direct-user, alias, or other (include / .forward). -/
inductive ExpType where
  | direct : ExpType
  | alias : ExpType
  | other : ExpType
deriving DecidableEq

/-- User attributes (delivery rights), the C `USER_ATTR`. -/
structure UserAttr where
  uid : Nat
  gid : Nat
  home : Option String
  logname : Option String
deriving DecidableEq

/-- The message/recipient attributes inside `LOCAL_STATE` (`state.msg_attr`),
with the fields `deliver_alias` reads or writes. -/
structure MsgAttr where
  local_ : String
  recipient : String
  sender : String
  exp_from : Option String
  exp_type : ExpType
  owner : Option String
  delivered : Option String
deriving DecidableEq

/-- The C `LOCAL_STATE`: recursion level plus the message attributes. -/
structure LOCAL_STATE where
  level : Nat
  msg_attr : MsgAttr
deriving DecidableEq

/-- A delivery status (`*statusp` in the C source), tagged with the
reporting call that produced it: `bounce_append` (permanent failure),
`defer_append` (retryable failure), `sent` (final disposition such as
"discarded"), or whatever status the delivery dispatcher returned. -/
inductive DeliveryStatus where
  | bounce_append : Nat → MsgAttr → String → DeliveryStatus
  | defer_append : Nat → MsgAttr → String → DeliveryStatus
  | sent : MsgAttr → String → DeliveryStatus
deriving DecidableEq

/-- The `BOUNCE_FLAG_KEEP` flag: keep the original recipient in the
failure report rather than the expanded one. -/
def BOUNCE_FLAG_KEEP : Nat := 1

/-- Modelled from the spec: `MAIL_ADDR_POSTMASTER` from `mail_addr.h`
(not under `src/`), the canonical postmaster name. -/
def MAIL_ADDR_POSTMASTER : String := "postmaster"

/-- Modelled from the spec: `MAIL_ADDR_MAIL_DAEMON` from `mail_addr.h`
(not under `src/`), the canonical mailer-daemon name. -/
def MAIL_ADDR_MAIL_DAEMON : String := "MAILER-DAEMON"

/-- ASCII lower-casing of one character, as C `tolower` behaves on ASCII. -/
def lowerChar (c : Char) : Char :=
  if 65 ≤ c.toNat ∧ c.toNat ≤ 90 then Char.ofNat (c.toNat + 32) else c

/-- The test `strcasecmp(a, b) == 0`: case-insensitive string equality. -/
def strcasecmp_eq (a b : String) : Bool :=
  a.data.map lowerChar == b.data.map lowerChar

/-- The utility `concatenate(a, b, (char *) 0)`: string concatenation. -/
def concatenate (a b : String) : String := a ++ b

/-- File-status information about an open dictionary, as seen by
`dict_owner` (`dict_handle` plus `fstat`). -/
structure DICT where
  fd : Int
  st_uid : Nat
deriving DecidableEq

/-- Environment of external collaborators: the ordered alias-map names
(`var_alias_maps`), the dictionary probe (`dict_lookup`), dictionary
handles for ownership (`dict_handle`), the password database (`mypwuid`),
the `owner_request_special` policy switch (`var_ownreq_special`), address
canonicalization (`canon_addr_internal`), the delivery dispatcher
(`deliver_token_string`) and the configured default delivery rights used
by `RESET_USER_ATTR`. -/
structure Env where
  var_alias_maps : List String
  dict_lookup : String → String → LookupResult
  dict_handle : String → DICT
  mypwuid : Nat → Option Mypasswd
  var_ownreq_special : Bool
  canon_addr_internal : String → String
  deliver_token_string : LOCAL_STATE → UserAttr → String → DeliveryStatus
  default_user_attr : UserAttr

/-- The helper `dict_owner` of alias.c: the uid owning the alias database,
with 0 (the superuser) substituted when the dictionary has no open file
descriptor.  (The `msg_panic`/`msg_fatal` paths abort the process and are
out of band.) -/
def dict_owner (env : Env) (table : String) : Nat :=
  if (env.dict_handle table).fd < 0 then 0 else (env.dict_handle table).st_uid

/-- Modelled from the spec: the `RESET_USER_ATTR` macro of `local.h` (not
under `src/`) restores the configured default unprivileged delivery
rights. -/
def RESET_USER_ATTR (env : Env) : UserAttr := env.default_user_attr

/-- Modelled from the spec: the `SET_USER_ATTR` macro of `local.h` (not
under `src/`) takes the delivery rights from a password-database entry. -/
def SET_USER_ATTR (pwd : Mypasswd) : UserAttr :=
  { uid := pwd.pw_uid, gid := pwd.pw_gid,
    home := some pwd.pw_dir, logname := some pwd.pw_name }

/-- Modelled from the spec: the `SET_OWNER_ATTR` macro of `local.h` (not
under `src/`) sets the owner attribute and redirects the sender to the
owner address. -/
def SET_OWNER_ATTR (attr : MsgAttr) (who : String) : MsgAttr :=
  { attr with sender := who, owner := some who }

/-- Modelled from the spec: the `RESET_OWNER_ATTR` macro of `local.h` (not
under `src/`) resets the owner attribute to "no owner". -/
def RESET_OWNER_ATTR (attr : MsgAttr) : MsgAttr :=
  { attr with owner := none }

/-- Modelled from the spec: `maps_find` of the global library (not under
`src/`) probes the ordered map chain for a key, first match wins, stopping
with an error when a source is unavailable.  The probes made are returned
alongside the result. -/
def maps_find (env : Env) (key : String) :
    List String → LookupResult × List (String × String)
  | [] => (.notFound, [])
  | t :: ts =>
    match env.dict_lookup t key with
    | .found v => (.found v, [(t, key)])
    | .err => (.err, [(t, key)])
    | .notFound =>
      let r := maps_find env key ts
      (r.1, (t, key) :: r.2)

/-- Observable outcome of one `deliver_alias` call: the int return value
(`true` = YES = handled, `false` = NO = not applicable), the value written
through `statusp` (none when it was left untouched), the calls made to the
delivery dispatcher `deliver_token_string`, and the dictionary probes
`(table, key)` that were made. -/
structure DeliverResult where
  ret : Bool
  status : Option DeliveryStatus
  dispatched : List (LOCAL_STATE × UserAttr × String)
  consulted : List (String × String)
deriving DecidableEq

/-- The owner-redirection step and dispatch of the matched-alias branch of
`deliver_alias` (alias.c): probe `owner-<local>` through the whole map
chain when the policy is enabled, set or reset the owner attribute, set the
`delivered` attribute to the original recipient, then either defer (when
the owner probe left `dict_errno` set) or hand the expansion text to
`deliver_token_string`. -/
def alias_found_owner (env : Env) (state : LOCAL_STATE) (usr_attr : UserAttr)
    (expansion : String) : DeliverResult :=
  if env.var_ownreq_special then
    let own := concatenate "owner-" state.msg_attr.local_
    match maps_find env own env.var_alias_maps with
    | (.found _, log) =>
      let canon_owner := env.canon_addr_internal own
      let st := { state with
                  msg_attr := { SET_OWNER_ATTR state.msg_attr canon_owner with
                                delivered := some state.msg_attr.recipient } }
      { ret := true,
        status := some (env.deliver_token_string st usr_attr expansion),
        dispatched := [(st, usr_attr, expansion)],
        consulted := log }
    | (.notFound, log) =>
      let st := { state with
                  msg_attr := { RESET_OWNER_ATTR state.msg_attr with
                                delivered := some state.msg_attr.recipient } }
      { ret := true,
        status := some (env.deliver_token_string st usr_attr expansion),
        dispatched := [(st, usr_attr, expansion)],
        consulted := log }
    | (.err, log) =>
      let st := { state with
                  msg_attr := { RESET_OWNER_ATTR state.msg_attr with
                                delivered := some state.msg_attr.recipient } }
      { ret := true,
        status := some (.defer_append BOUNCE_FLAG_KEEP st.msg_attr
          "alias database unavailable"),
        dispatched := [],
        consulted := log }
  else
    let st := { state with
                msg_attr := { RESET_OWNER_ATTR state.msg_attr with
                              delivered := some state.msg_attr.recipient } }
    { ret := true,
      status := some (env.deliver_token_string st usr_attr expansion),
      dispatched := [(st, usr_attr, expansion)],
      consulted := [] }

/-- The matched-alias branch of `deliver_alias` (alias.c): tag the
expansion type as alias, derive the delivery rights from the alias-database
owner (default rights for a root-owned database, the owner's rights
otherwise, a deferred failure when the owner's account cannot be found),
then continue with owner redirection and dispatch. -/
def alias_found (env : Env) (state : LOCAL_STATE) (usr_attr : UserAttr)
    (table : String) (alias_result : String) : DeliverResult :=
  let state := { state with
                 msg_attr := { state.msg_attr with exp_type := ExpType.alias } }
  if dict_owner env table = 0 then
    alias_found_owner env state (RESET_USER_ATTR env) alias_result
  else
    match env.mypwuid (dict_owner env table) with
    | none =>
      { ret := true,
        status := some (.defer_append BOUNCE_FLAG_KEEP state.msg_attr
          "cannot find alias database owner"),
        dispatched := [],
        consulted := [] }
    | some pwd => alias_found_owner env state (SET_USER_ATTR pwd) alias_result

/-- The fall-through of `deliver_alias` when no source matched and none
errored (alias.c): a reserved recipient name with no alias is discarded
with a warning; otherwise the call is not applicable and the caller tries
direct user delivery. -/
def alias_not_found (state : LOCAL_STATE) : DeliverResult :=
  if strcasecmp_eq state.msg_attr.local_ MAIL_ADDR_MAIL_DAEMON
      || strcasecmp_eq state.msg_attr.local_ MAIL_ADDR_POSTMASTER then
    { ret := true,
      status := some (.sent state.msg_attr "discarded"),
      dispatched := [],
      consulted := [] }
  else
    { ret := false, status := none, dispatched := [], consulted := [] }

/-- The ordered source scan of `deliver_alias` (the `for (cpp = ...)` loop
of alias.c): probe each source in configured order for the local name;
first match wins; a lookup error defers immediately; exhaustion falls
through to the reserved-name check. -/
def alias_scan (env : Env) (state : LOCAL_STATE) (usr_attr : UserAttr) :
    List String → DeliverResult
  | [] => alias_not_found state
  | table :: rest =>
    match env.dict_lookup table state.msg_attr.local_ with
    | .found v =>
      let r := alias_found env state usr_attr table v
      { r with consulted := (table, state.msg_attr.local_) :: r.consulted }
    | .err =>
      { ret := true,
        status := some (.defer_append BOUNCE_FLAG_KEEP state.msg_attr
          "alias database unavailable"),
        dispatched := [],
        consulted := [(table, state.msg_attr.local_)] }
    | .notFound =>
      let r := alias_scan env state usr_attr rest
      { r with consulted := (table, state.msg_attr.local_) :: r.consulted }

/-- The part of `deliver_alias` after the self-reference short-circuit
(alias.c): the depth guard against alias-database loops, then setting
`exp_from` to the current local name and scanning the configured sources. -/
def deliver_alias_checked (env : Env) (state : LOCAL_STATE)
    (usr_attr : UserAttr) : DeliverResult :=
  if state.level > 100 then
    { ret := true,
      status := some (.bounce_append BOUNCE_FLAG_KEEP state.msg_attr
        ("possible alias database loop for " ++ state.msg_attr.local_)),
      dispatched := [],
      consulted := [] }
  else
    alias_scan env
      { state with
        msg_attr := { state.msg_attr with
                      exp_from := some state.msg_attr.local_ } }
      usr_attr env.var_alias_maps

/-- The entry point `deliver_alias` of alias.c: increment the recursion
level, short-circuit to NOT_APPLICABLE when the expansion in progress is
the local name itself (case-insensitively), and otherwise continue with the
depth guard and the source scan. -/
def deliver_alias (env : Env) (state : LOCAL_STATE)
    (usr_attr : UserAttr) : DeliverResult :=
  let state := { state with level := state.level + 1 }
  match state.msg_attr.exp_from with
  | some f =>
    if strcasecmp_eq f state.msg_attr.local_ then
      { ret := false, status := none, dispatched := [], consulted := [] }
    else deliver_alias_checked env state usr_attr
  | none => deliver_alias_checked env state usr_attr

/-- The caller's view of one invocation: in C, `LOCAL_STATE state` and
`USER_ATTR usr_attr` are passed to `deliver_alias` by value, and only the
int behind `statusp` is written back. -/
structure CallerFrame where
  state : LOCAL_STATE
  usr_attr : UserAttr
  status : Option DeliveryStatus
deriving DecidableEq

/-- The C call `ret = deliver_alias(state, usr_attr, &status)`: the callee
operates on copies of `state` and `usr_attr`; the caller's frame changes
only through `statusp`. -/
def deliver_alias_call (env : Env) (frame : CallerFrame) :
    CallerFrame × Bool :=
  let r := deliver_alias env frame.state frame.usr_attr
  ({ frame with
     status := match r.status with
               | some st => some st
               | none => frame.status },
   r.ret)

/-- The state with which `deliver_alias` enters the source scan: level
incremented on entry, `exp_from` set to the local name. -/
def expandedState (s : LOCAL_STATE) : LOCAL_STATE :=
  { level := s.level + 1,
    msg_attr := { s.msg_attr with exp_from := some s.msg_attr.local_ } }

/-- Recognizer for a successful lookup result. -/
def lookupIsFound : LookupResult → Bool
  | .found _ => true
  | _ => false

/-- Recognizer for a status produced by the deferred (retryable) reporting
interface. -/
def statusIsDeferredFlag : Option DeliveryStatus → Bool
  | some (.defer_append _ _ _) => true
  | _ => false

/-! Concrete fixtures used by witnesses and counterexamples. -/

/-- Concrete message attributes for recipient `x`, no expansion in
progress. -/
def attrX : MsgAttr :=
  { local_ := "x", recipient := "x@host", sender := "from@host",
    exp_from := none, exp_type := ExpType.direct, owner := none,
    delivered := none }

/-- Concrete incoming delivery rights. -/
def uaX : UserAttr := { uid := 99, gid := 99, home := none, logname := none }

/-- Concrete configured default delivery rights. -/
def defaultUA : UserAttr :=
  { uid := 11, gid := 12, home := some "/var/spool", logname := some "default" }

/-- Concrete password-database entry for uid 7. -/
def pwd7 : Mypasswd :=
  { pw_name := "listowner", pw_uid := 7, pw_gid := 7, pw_dir := "/home/listowner" }

/-- Concrete dispatcher stub that records its state and expansion text in
the returned status. -/
def dispatchMark : LOCAL_STATE → UserAttr → String → DeliveryStatus :=
  fun st _ w => DeliveryStatus.sent st.msg_attr w

/-- Environment builder for the concrete fixtures. -/
def mkEnv (tables : List String) (lk : String → String → LookupResult)
    (hd : String → DICT) (pw : Nat → Option Mypasswd) (ownreq : Bool) : Env :=
  { var_alias_maps := tables, dict_lookup := lk, dict_handle := hd,
    mypwuid := pw, var_ownreq_special := ownreq,
    canon_addr_internal := fun a => String.append "canon:" a,
    deliver_token_string := dispatchMark,
    default_user_attr := defaultUA }

/-- Concrete state: recipient `x`, top level, no expansion in progress. -/
def stX : LOCAL_STATE := { level := 0, msg_attr := attrX }

/-- Concrete state at the recursion ceiling: level 100 before the entry
increment. -/
def stLoop : LOCAL_STATE := { level := 100, msg_attr := attrX }

/-- Concrete state for the reserved-name scenario. -/
def stPM : LOCAL_STATE :=
  { level := 0, msg_attr := { attrX with local_ := "Postmaster" } }

/-- Concrete state with an expansion of `X` in progress, deep in the
recursion. -/
def stSelf : LOCAL_STATE :=
  { level := 500, msg_attr := { attrX with exp_from := some "X" } }

/-- Concrete environment whose sources never match. -/
def envNF : Env :=
  mkEnv ["m"] (fun _ _ => LookupResult.notFound) (fun _ => { fd := 3, st_uid := 7 })
    (fun u => if u = 7 then some pwd7 else none) false

/-- Concrete environment where source `a` misses, source `b` reports a
lookup error and source `c` would match. -/
def envErr : Env :=
  mkEnv ["a", "b", "c"]
    (fun t _ => if t == "b" then LookupResult.err
      else if t == "c" then LookupResult.found "late" else LookupResult.notFound)
    (fun _ => { fd := 3, st_uid := 7 })
    (fun u => if u = 7 then some pwd7 else none) false

/-- Concrete environment whose only source maps `x` to `bob` but is owned
by uid 7, for which no password-database entry exists. -/
def envC5 : Env :=
  mkEnv ["m"]
    (fun t k => if t == "m" && k == "x" then LookupResult.found "bob"
      else LookupResult.notFound)
    (fun _ => { fd := 3, st_uid := 7 })
    (fun _ => none) false

/-- Concrete environment whose only source maps `x` to itself and is
owned by root. -/
def envXX : Env :=
  mkEnv ["m"]
    (fun t k => if t == "m" && k == "x" then LookupResult.found "x"
      else LookupResult.notFound)
    (fun _ => { fd := 3, st_uid := 0 })
    (fun _ => none) false

/-- Concrete environment with owner redirection enabled, whose only
source maps `x` to `bob` and `owner-x` to `ownx`, owned by root. -/
def envOwn : Env :=
  mkEnv ["m"]
    (fun t k => if t == "m" && k == "x" then LookupResult.found "bob"
      else if t == "m" && k == "owner-x" then LookupResult.found "ownx"
      else LookupResult.notFound)
    (fun _ => { fd := 3, st_uid := 0 })
    (fun _ => none) true

/-- Concrete caller frame. -/
def frameX : CallerFrame := { state := stX, usr_attr := uaX, status := none }

section Theorems

/-! Helper lemmas about the scan and the matched-alias branch. -/

theorem deliver_alias_eq_scan (env : Env) (s : LOCAL_STATE) (ua : UserAttr)
    (hfrom : ∀ f, s.msg_attr.exp_from = some f →
      strcasecmp_eq f s.msg_attr.local_ = false)
    (hlev : s.level + 1 ≤ 100) :
    deliver_alias env s ua =
      alias_scan env (expandedState s) ua env.var_alias_maps := by
  have hle : ¬ (s.level + 1 > 100) := by omega
  unfold deliver_alias deliver_alias_checked expandedState
  cases h : s.msg_attr.exp_from with
  | none => simp [h, hle]
  | some f => simp [h, hfrom f h, hle]

theorem alias_scan_skips_notFound (env : Env) (st : LOCAL_STATE)
    (ua : UserAttr) (pre rest : List String)
    (hpre : ∀ u ∈ pre, env.dict_lookup u st.msg_attr.local_ =
      LookupResult.notFound) :
    alias_scan env st ua (pre ++ rest) =
      { alias_scan env st ua rest with
        consulted := pre.map (fun u => (u, st.msg_attr.local_)) ++
          (alias_scan env st ua rest).consulted } := by
  induction pre with
  | nil => simp
  | cons u us ih =>
    have hu := hpre u (by simp)
    have ih2 := ih (fun v hv => hpre v (by simp [hv]))
    simp [alias_scan, hu, ih2]

theorem alias_scan_found_cons (env : Env) (st : LOCAL_STATE) (ua : UserAttr)
    (t : String) (rest : List String) (w : String)
    (ht : env.dict_lookup t st.msg_attr.local_ = LookupResult.found w) :
    alias_scan env st ua (t :: rest) =
      { alias_found env st ua t w with
        consulted := (t, st.msg_attr.local_) ::
          (alias_found env st ua t w).consulted } := by
  simp [alias_scan, ht]

theorem maps_find_consulted_key (env : Env) (key : String) :
    ∀ tables, ∀ p ∈ (maps_find env key tables).2, p.2 = key := by
  intro tables
  induction tables with
  | nil => intro p hp; simp [maps_find] at hp
  | cons t ts ih =>
    intro p hp
    unfold maps_find at hp
    split at hp
    · simp at hp; simp [hp]
    · simp at hp; simp [hp]
    · simp at hp
      rcases hp with hp | hp
      · simp [hp]
      · exact ih p hp

theorem alias_found_owner_dispatched (env : Env) (st : LOCAL_STATE)
    (ua : UserAttr) (w : String) :
    ∀ call ∈ (alias_found_owner env st ua w).dispatched,
      call.1.level = st.level ∧
      call.1.msg_attr.exp_from = st.msg_attr.exp_from ∧
      call.1.msg_attr.exp_type = st.msg_attr.exp_type ∧
      call.1.msg_attr.local_ = st.msg_attr.local_ ∧
      call.1.msg_attr.delivered = some st.msg_attr.recipient ∧
      call.2.1 = ua ∧ call.2.2 = w := by
  intro call hc
  by_cases ho : env.var_ownreq_special
  · cases hmf : maps_find env (concatenate "owner-" st.msg_attr.local_)
      env.var_alias_maps with
    | mk res log =>
      cases res with
      | found v =>
        simp [alias_found_owner, ho, hmf, SET_OWNER_ATTR] at hc
        simp [hc, SET_OWNER_ATTR]
      | notFound =>
        simp [alias_found_owner, ho, hmf, RESET_OWNER_ATTR] at hc
        simp [hc, RESET_OWNER_ATTR]
      | err =>
        simp [alias_found_owner, ho, hmf] at hc
  · simp [alias_found_owner, ho, RESET_OWNER_ATTR] at hc
    simp [hc, RESET_OWNER_ATTR]

theorem alias_found_dispatched (env : Env) (st : LOCAL_STATE) (ua : UserAttr)
    (table : String) (w : String) :
    ∀ call ∈ (alias_found env st ua table w).dispatched,
      call.1.level = st.level ∧
      call.1.msg_attr.exp_from = st.msg_attr.exp_from ∧
      call.1.msg_attr.exp_type = ExpType.alias ∧
      call.1.msg_attr.local_ = st.msg_attr.local_ ∧
      call.1.msg_attr.delivered = some st.msg_attr.recipient ∧
      call.2.2 = w := by
  intro call hc
  unfold alias_found at hc
  split at hc
  · have h := alias_found_owner_dispatched env
      { st with msg_attr := { st.msg_attr with exp_type := ExpType.alias } }
      (RESET_USER_ATTR env) w call hc
    obtain ⟨h1, h2, h3, h4, h5, _, h7⟩ := h
    exact ⟨h1, by simpa using h2, by simpa using h3, by simpa using h4,
      by simpa using h5, h7⟩
  · split at hc
    · simp at hc
    · rename_i pwd hpwd
      have h := alias_found_owner_dispatched env
        { st with msg_attr := { st.msg_attr with exp_type := ExpType.alias } }
        (SET_USER_ATTR pwd) w call hc
      obtain ⟨h1, h2, h3, h4, h5, _, h7⟩ := h
      exact ⟨h1, by simpa using h2, by simpa using h3, by simpa using h4,
        by simpa using h5, h7⟩

theorem alias_scan_dispatched (env : Env) (st : LOCAL_STATE) (ua : UserAttr) :
    ∀ tables, ∀ call ∈ (alias_scan env st ua tables).dispatched,
      call.1.level = st.level ∧
      call.1.msg_attr.exp_from = st.msg_attr.exp_from := by
  intro tables
  induction tables with
  | nil =>
    intro call hc
    unfold alias_scan alias_not_found at hc
    split at hc <;> simp at hc
  | cons t ts ih =>
    intro call hc
    unfold alias_scan at hc
    split at hc
    · rename_i v hv
      simp only [DeliverResult.dispatched] at hc
      have h := alias_found_dispatched env st ua t v call hc
      exact ⟨h.1, h.2.1⟩
    · simp at hc
    · simp only [DeliverResult.dispatched] at hc
      exact ih call hc

theorem deliver_alias_dispatched (env : Env) (s : LOCAL_STATE)
    (ua : UserAttr) :
    ∀ call ∈ (deliver_alias env s ua).dispatched,
      call.1.level = s.level + 1 ∧
      call.1.msg_attr.exp_from = some s.msg_attr.local_ := by
  intro call hc
  have hscan := alias_scan_dispatched env (expandedState s) ua
    env.var_alias_maps call
  by_cases hl : s.level + 1 > 100
  · cases h : s.msg_attr.exp_from with
    | none => simp [deliver_alias, deliver_alias_checked, h, hl] at hc
    | some f =>
      by_cases hf : strcasecmp_eq f s.msg_attr.local_ = true
      · simp [deliver_alias, h, hf] at hc
      · simp [deliver_alias, deliver_alias_checked, h, hf, hl] at hc
  · cases h : s.msg_attr.exp_from with
    | none =>
      simp [deliver_alias, deliver_alias_checked, h, hl] at hc
      have h2 := hscan (by simpa [expandedState] using hc)
      simpa [expandedState] using h2
    | some f =>
      by_cases hf : strcasecmp_eq f s.msg_attr.local_ = true
      · simp [deliver_alias, h, hf] at hc
      · simp [deliver_alias, deliver_alias_checked, h, hf, hl] at hc
        have h2 := hscan (by simpa [expandedState] using hc)
        simpa [expandedState] using h2

theorem owner_name_ne (l : String) : concatenate "owner-" l ≠ l := by
  intro h
  have h2 := congrArg String.length h
  simp [concatenate, String.length_append] at h2
  exact absurd h2 (by decide)

theorem alias_found_owner_fields (env : Env) (st : LOCAL_STATE)
    (ua : UserAttr) (w : String)
    (hprobe : env.var_ownreq_special = false ∨
      (maps_find env (concatenate "owner-" st.msg_attr.local_)
        env.var_alias_maps).1 ≠ LookupResult.err) :
    ∃ st',
      (alias_found_owner env st ua w).ret = true ∧
      (alias_found_owner env st ua w).status =
        some (env.deliver_token_string st' ua w) ∧
      (alias_found_owner env st ua w).dispatched = [(st', ua, w)] := by
  by_cases ho : env.var_ownreq_special = true
  · cases hmf : maps_find env (concatenate "owner-" st.msg_attr.local_)
      env.var_alias_maps with
    | mk res log =>
      cases res with
      | found v =>
        refine ⟨{ st with msg_attr :=
          { SET_OWNER_ATTR st.msg_attr (env.canon_addr_internal
              (concatenate "owner-" st.msg_attr.local_)) with
            delivered := some st.msg_attr.recipient } }, ?_, ?_, ?_⟩ <;>
          simp [alias_found_owner, ho, hmf]
      | notFound =>
        refine ⟨{ st with msg_attr :=
          { RESET_OWNER_ATTR st.msg_attr with
            delivered := some st.msg_attr.recipient } }, ?_, ?_, ?_⟩ <;>
          simp [alias_found_owner, ho, hmf]
      | err =>
        rcases hprobe with hp | hp
        · rw [hp] at ho; exact absurd ho (by simp)
        · rw [hmf] at hp; exact absurd rfl hp
  · refine ⟨{ st with msg_attr :=
      { RESET_OWNER_ATTR st.msg_attr with
        delivered := some st.msg_attr.recipient } }, ?_, ?_, ?_⟩ <;>
      simp [alias_found_owner, ho]

theorem alias_found_fields (env : Env) (st : LOCAL_STATE) (ua : UserAttr)
    (table : String) (w : String)
    (hown : dict_owner env table = 0 ∨
      (env.mypwuid (dict_owner env table)).isSome = true)
    (hprobe : env.var_ownreq_special = false ∨
      (maps_find env (concatenate "owner-" st.msg_attr.local_)
        env.var_alias_maps).1 ≠ LookupResult.err) :
    ∃ st' ua',
      (alias_found env st ua table w).ret = true ∧
      (alias_found env st ua table w).status =
        some (env.deliver_token_string st' ua' w) ∧
      (alias_found env st ua table w).dispatched = [(st', ua', w)] := by
  have hprobe1 : env.var_ownreq_special = false ∨
      (maps_find env (concatenate "owner-"
        ({ st with msg_attr := { st.msg_attr with
          exp_type := ExpType.alias } } : LOCAL_STATE).msg_attr.local_)
        env.var_alias_maps).1 ≠ LookupResult.err := by
    simpa using hprobe
  by_cases huid : dict_owner env table = 0
  · obtain ⟨st', h1, h2, h3⟩ := alias_found_owner_fields env
      { st with msg_attr := { st.msg_attr with exp_type := ExpType.alias } }
      (RESET_USER_ATTR env) w hprobe1
    refine ⟨st', RESET_USER_ATTR env, ?_, ?_, ?_⟩
    · simpa [alias_found, huid] using h1
    · simpa [alias_found, huid] using h2
    · simpa [alias_found, huid] using h3
  · rcases hown with h0 | hsome
    · exact absurd h0 huid
    · obtain ⟨pwd, hpwd⟩ := Option.isSome_iff_exists.mp hsome
      obtain ⟨st', h1, h2, h3⟩ := alias_found_owner_fields env
        { st with msg_attr := { st.msg_attr with exp_type := ExpType.alias } }
        (SET_USER_ATTR pwd) w hprobe1
      refine ⟨st', SET_USER_ATTR pwd, ?_, ?_, ?_⟩
      · simpa [alias_found, huid, hpwd] using h1
      · simpa [alias_found, huid, hpwd] using h2
      · simpa [alias_found, huid, hpwd] using h3

theorem alias_found_owner_consulted_key (env : Env) (st : LOCAL_STATE)
    (ua : UserAttr) (w : String) :
    ∀ p ∈ (alias_found_owner env st ua w).consulted,
      p.2 = concatenate "owner-" st.msg_attr.local_ := by
  intro p hp
  by_cases ho : env.var_ownreq_special = true
  · cases hmf : maps_find env (concatenate "owner-" st.msg_attr.local_)
      env.var_alias_maps with
    | mk res log =>
      have hkey := maps_find_consulted_key env
        (concatenate "owner-" st.msg_attr.local_) env.var_alias_maps p
      rw [hmf] at hkey
      cases res with
      | found v =>
        simp only [alias_found_owner, ho, if_true, hmf] at hp
        exact hkey hp
      | notFound =>
        simp only [alias_found_owner, ho, if_true, hmf] at hp
        exact hkey hp
      | err =>
        simp only [alias_found_owner, ho, if_true, hmf] at hp
        exact hkey hp
  · simp [alias_found_owner, ho] at hp

theorem alias_found_consulted_key (env : Env) (st : LOCAL_STATE)
    (ua : UserAttr) (table : String) (w : String) :
    ∀ p ∈ (alias_found env st ua table w).consulted,
      p.2 = concatenate "owner-" st.msg_attr.local_ := by
  intro p hp
  by_cases huid : dict_owner env table = 0
  · simp only [alias_found, huid, if_true] at hp
    have h := alias_found_owner_consulted_key env
      { st with msg_attr := { st.msg_attr with exp_type := ExpType.alias } }
      (RESET_USER_ATTR env) w p hp
    simpa using h
  · cases hpwd : env.mypwuid (dict_owner env table) with
    | none => simp [alias_found, huid, hpwd] at hp
    | some pwd =>
      simp only [alias_found, huid, if_false, hpwd] at hp
      have h := alias_found_owner_consulted_key env
        { st with msg_attr := { st.msg_attr with exp_type := ExpType.alias } }
        (SET_USER_ATTR pwd) w p hp
      simpa using h

theorem alias_found_owner_attr_of_dispatch (env : Env) (st : LOCAL_STATE)
    (ua : UserAttr) (w : String) :
    ∀ call ∈ (alias_found_owner env st ua w).dispatched,
      call.1.msg_attr.owner =
        (if env.var_ownreq_special &&
            lookupIsFound (maps_find env
              (concatenate "owner-" st.msg_attr.local_)
              env.var_alias_maps).1
         then some (env.canon_addr_internal
              (concatenate "owner-" st.msg_attr.local_))
         else none) := by
  intro call hc
  by_cases ho : env.var_ownreq_special = true
  · cases hmf : maps_find env (concatenate "owner-" st.msg_attr.local_)
      env.var_alias_maps with
    | mk res log =>
      cases res with
      | found v =>
        simp [alias_found_owner, ho, hmf, SET_OWNER_ATTR] at hc
        simp [hc, ho, hmf, lookupIsFound, SET_OWNER_ATTR]
      | notFound =>
        simp [alias_found_owner, ho, hmf, RESET_OWNER_ATTR] at hc
        simp [hc, ho, hmf, lookupIsFound, RESET_OWNER_ATTR]
      | err => simp [alias_found_owner, ho, hmf] at hc
  · simp [alias_found_owner, ho, RESET_OWNER_ATTR] at hc
    simp [hc, ho, RESET_OWNER_ATTR]

theorem alias_found_attr_of_dispatch (env : Env) (st : LOCAL_STATE)
    (ua : UserAttr) (table : String) (w : String) :
    ∀ call ∈ (alias_found env st ua table w).dispatched,
      call.1.msg_attr.owner =
        (if env.var_ownreq_special &&
            lookupIsFound (maps_find env
              (concatenate "owner-" st.msg_attr.local_)
              env.var_alias_maps).1
         then some (env.canon_addr_internal
              (concatenate "owner-" st.msg_attr.local_))
         else none) := by
  intro call hc
  by_cases huid : dict_owner env table = 0
  · simp only [alias_found, huid, if_true] at hc
    have h := alias_found_owner_attr_of_dispatch env
      { st with msg_attr := { st.msg_attr with exp_type := ExpType.alias } }
      (RESET_USER_ATTR env) w call hc
    simpa using h
  · cases hpwd : env.mypwuid (dict_owner env table) with
    | none => simp [alias_found, huid, hpwd] at hc
    | some pwd =>
      simp only [alias_found, huid, if_false, hpwd] at hc
      have h := alias_found_owner_attr_of_dispatch env
        { st with msg_attr := { st.msg_attr with exp_type := ExpType.alias } }
        (SET_USER_ATTR pwd) w call hc
      simpa using h

theorem alias_found_rights_of_dispatch (env : Env) (st : LOCAL_STATE)
    (ua : UserAttr) (table : String) (w : String)
    (huid : dict_owner env table = 0) :
    ∀ call ∈ (alias_found env st ua table w).dispatched,
      call.2.1 = RESET_USER_ATTR env := by
  intro call hc
  simp only [alias_found, huid, if_true] at hc
  exact (alias_found_owner_dispatched env
    { st with msg_attr := { st.msg_attr with exp_type := ExpType.alias } }
    (RESET_USER_ATTR env) w call hc).2.2.2.2.2.1

theorem deliver_alias_found_eq (env : Env) (s : LOCAL_STATE) (ua : UserAttr)
    (pre : List String) (t : String) (post : List String) (w : String)
    (hfrom : ∀ f, s.msg_attr.exp_from = some f →
      strcasecmp_eq f s.msg_attr.local_ = false)
    (hlev : s.level + 1 ≤ 100)
    (hmaps : env.var_alias_maps = pre ++ t :: post)
    (hpre : ∀ u ∈ pre, env.dict_lookup u s.msg_attr.local_ =
      LookupResult.notFound)
    (ht : env.dict_lookup t s.msg_attr.local_ = LookupResult.found w) :
    deliver_alias env s ua =
      { alias_found env (expandedState s) ua t w with
        consulted := pre.map (fun u => (u, s.msg_attr.local_)) ++
          (t, s.msg_attr.local_) ::
            (alias_found env (expandedState s) ua t w).consulted } := by
  rw [deliver_alias_eq_scan env s ua hfrom hlev, hmaps]
  rw [alias_scan_skips_notFound env (expandedState s) ua pre (t :: post)
    (by simpa [expandedState] using hpre)]
  rw [alias_scan_found_cons env (expandedState s) ua t post w
    (by simpa [expandedState] using ht)]
  simp [expandedState]

/-! Claim theorems. -/

/-- C1 (amended): for every state whose recursion level, after the entry
increment, exceeds the fixed ceiling of 100 (and which is not caught by
the earlier self-reference short-circuit), `deliver_alias` reports the
possible alias database loop failure through the bounce (permanent,
non-retryable) reporting interface — not the deferred one — with the
keep-original-recipient flag set, and returns HANDLED (YES) without
consulting any alias source. -/
theorem loop_failure_bounced_handled (env : Env) (s : LOCAL_STATE)
    (ua : UserAttr)
    (hfrom : ∀ f, s.msg_attr.exp_from = some f →
      strcasecmp_eq f s.msg_attr.local_ = false)
    (hlev : 100 < s.level + 1) :
    deliver_alias env s ua =
      { ret := true,
        status := some (.bounce_append BOUNCE_FLAG_KEEP s.msg_attr
          ("possible alias database loop for " ++ s.msg_attr.local_)),
        dispatched := [], consulted := [] } := by
  unfold deliver_alias deliver_alias_checked
  cases h : s.msg_attr.exp_from with
  | none => simp [h, hlev]
  | some f => simp [h, hfrom f h, hlev]

/-- C2: when a source reports a lookup error (source unavailable,
distinguished from not-found) for the local recipient name, after every
earlier source reported not-found, `deliver_alias` records a deferred
failure with reason "alias database unavailable" (keep-original-recipient
flag set) and returns HANDLED, consulting exactly the sources up to and
including the erroring one — never a source later in the chain. -/
theorem lookup_error_defers_handled (env : Env) (s : LOCAL_STATE)
    (ua : UserAttr) (pre : List String) (t : String) (post : List String)
    (hfrom : ∀ f, s.msg_attr.exp_from = some f →
      strcasecmp_eq f s.msg_attr.local_ = false)
    (hlev : s.level + 1 ≤ 100)
    (hmaps : env.var_alias_maps = pre ++ t :: post)
    (hpre : ∀ u ∈ pre, env.dict_lookup u s.msg_attr.local_ =
      LookupResult.notFound)
    (ht : env.dict_lookup t s.msg_attr.local_ = LookupResult.err) :
    deliver_alias env s ua =
      { ret := true,
        status := some (.defer_append BOUNCE_FLAG_KEEP
          { s.msg_attr with exp_from := some s.msg_attr.local_ }
          "alias database unavailable"),
        dispatched := [],
        consulted := pre.map (fun u => (u, s.msg_attr.local_)) ++
          [(t, s.msg_attr.local_)] } := by
  rw [deliver_alias_eq_scan env s ua hfrom hlev, hmaps]
  rw [alias_scan_skips_notFound env (expandedState s) ua pre (t :: post)
    (by simpa [expandedState] using hpre)]
  simp [alias_scan, expandedState, ht]

/-- C3: when no source in the chain contains the local recipient name and
no source errors, `deliver_alias` returns NOT_APPLICABLE (0) without
touching the status — except when the name is one of the reserved names
(postmaster or the mailer-daemon equivalent, case-insensitively), in which
case it records a non-retryable "discarded" final status through the
`sent` interface and returns HANDLED. -/
theorem no_match_not_applicable_or_reserved_discard (env : Env)
    (s : LOCAL_STATE) (ua : UserAttr)
    (hfrom : ∀ f, s.msg_attr.exp_from = some f →
      strcasecmp_eq f s.msg_attr.local_ = false)
    (hlev : s.level + 1 ≤ 100)
    (hall : ∀ u ∈ env.var_alias_maps, env.dict_lookup u s.msg_attr.local_ =
      LookupResult.notFound) :
    ((strcasecmp_eq s.msg_attr.local_ MAIL_ADDR_MAIL_DAEMON
        || strcasecmp_eq s.msg_attr.local_ MAIL_ADDR_POSTMASTER) = true →
      deliver_alias env s ua =
        { ret := true,
          status := some (.sent
            { s.msg_attr with exp_from := some s.msg_attr.local_ }
            "discarded"),
          dispatched := [],
          consulted := env.var_alias_maps.map
            (fun u => (u, s.msg_attr.local_)) }) ∧
    ((strcasecmp_eq s.msg_attr.local_ MAIL_ADDR_MAIL_DAEMON
        || strcasecmp_eq s.msg_attr.local_ MAIL_ADDR_POSTMASTER) = false →
      deliver_alias env s ua =
        { ret := false, status := none, dispatched := [],
          consulted := env.var_alias_maps.map
            (fun u => (u, s.msg_attr.local_)) }) := by
  have heq : deliver_alias env s ua =
      { alias_not_found (expandedState s) with
        consulted := env.var_alias_maps.map
          (fun u => (u, s.msg_attr.local_)) } := by
    rw [deliver_alias_eq_scan env s ua hfrom hlev]
    have h2 := alias_scan_skips_notFound env (expandedState s) ua
      env.var_alias_maps [] (by simpa [expandedState] using hall)
    rw [List.append_nil] at h2
    rw [h2]
    have hnc : ∀ st : LOCAL_STATE, (alias_not_found st).consulted = [] := by
      intro st
      unfold alias_not_found
      split <;> rfl
    simp [alias_scan, expandedState, hnc]
  constructor
  · intro hres
    rw [heq]
    simp [alias_not_found, expandedState, hres]
  · intro hres
    rw [heq]
    simp [alias_not_found, expandedState, hres]

/-- C4: when `exp_from` is set and equals the local recipient name under
case-insensitive comparison, `deliver_alias` returns NOT_APPLICABLE
immediately — before the depth check (no bound on the level is needed)
and before any source lookup (nothing is consulted, nothing dispatched,
the status is untouched) — so a self-referencing alias falls through to
direct user delivery rather than looping. -/
theorem self_reference_not_applicable (env : Env) (s : LOCAL_STATE)
    (ua : UserAttr) (f : String)
    (h1 : s.msg_attr.exp_from = some f)
    (h2 : strcasecmp_eq f s.msg_attr.local_ = true) :
    deliver_alias env s ua =
      { ret := false, status := none, dispatched := [], consulted := [] } := by
  unfold deliver_alias
  simp [h1, h2]

/-- C7: when the first matching alias source is owned by a non-superuser
account whose identity record cannot be resolved, `deliver_alias` records
a deferred failure with reason "cannot find alias database owner"
(keep-original-recipient flag set) and returns HANDLED, without invoking
the dispatcher and without falling back to a default identity. -/
theorem missing_owner_defers_no_dispatch (env : Env) (s : LOCAL_STATE)
    (ua : UserAttr) (pre : List String) (t : String) (post : List String)
    (w : String)
    (hfrom : ∀ f, s.msg_attr.exp_from = some f →
      strcasecmp_eq f s.msg_attr.local_ = false)
    (hlev : s.level + 1 ≤ 100)
    (hmaps : env.var_alias_maps = pre ++ t :: post)
    (hpre : ∀ u ∈ pre, env.dict_lookup u s.msg_attr.local_ =
      LookupResult.notFound)
    (ht : env.dict_lookup t s.msg_attr.local_ = LookupResult.found w)
    (huid : dict_owner env t ≠ 0)
    (hpwd : env.mypwuid (dict_owner env t) = none) :
    deliver_alias env s ua =
      { ret := true,
        status := some (.defer_append BOUNCE_FLAG_KEEP
          { s.msg_attr with
            exp_from := some s.msg_attr.local_,
            exp_type := ExpType.alias }
          "cannot find alias database owner"),
        dispatched := [],
        consulted := pre.map (fun u => (u, s.msg_attr.local_)) ++
          [(t, s.msg_attr.local_)] } := by
  rw [deliver_alias_found_eq env s ua pre t post w hfrom hlev hmaps hpre ht]
  simp [alias_found, huid, hpwd, expandedState]

/-- C10: when `exp_from` is null (top-level resolution, no expansion in
progress), the self-reference short-circuit is skipped entirely and
`deliver_alias` proceeds to the depth check and the ordered source scan
(the body `deliver_alias_checked`, on the level-incremented state) — even
when an alias maps the local name to itself. -/
theorem no_exp_from_skips_self_check (env : Env) (s : LOCAL_STATE)
    (ua : UserAttr) (h : s.msg_attr.exp_from = none) :
    deliver_alias env s ua =
      deliver_alias_checked env { s with level := s.level + 1 } ua := by
  unfold deliver_alias
  simp [h]

/-- C9: the C signature passes `LOCAL_STATE state` and `USER_ATTR
usr_attr` by value, so after `deliver_alias_call` the caller's state and
rights are unchanged — every mutation (the level increment, the setting of
`exp_from`) is confined to the callee's copy, observable only in the state
handed to the delivery dispatcher; sibling expansions each receive their
own copy and cannot corrupt each other's fields. -/
theorem state_by_value_frame (env : Env) (frame : CallerFrame) :
    ((deliver_alias_call env frame).1.state = frame.state ∧
     (deliver_alias_call env frame).1.usr_attr = frame.usr_attr) ∧
    (∀ call ∈ (deliver_alias env frame.state frame.usr_attr).dispatched,
      call.1.level = frame.state.level + 1 ∧
      call.1.msg_attr.exp_from = some frame.state.msg_attr.local_) := by
  refine ⟨⟨rfl, rfl⟩, ?_⟩
  exact deliver_alias_dispatched env frame.state frame.usr_attr

/-- C6: when the first matching alias source is owned by the
superuser-equivalent account (uid 0), every delivery dispatched by this
call runs under the configured default unprivileged identity
(`RESET_USER_ATTR`), regardless of the position of the matching source in
the chain. -/
theorem root_owned_source_default_rights (env : Env) (s : LOCAL_STATE)
    (ua : UserAttr) (pre : List String) (t : String) (post : List String)
    (w : String)
    (hfrom : ∀ f, s.msg_attr.exp_from = some f →
      strcasecmp_eq f s.msg_attr.local_ = false)
    (hlev : s.level + 1 ≤ 100)
    (hmaps : env.var_alias_maps = pre ++ t :: post)
    (hpre : ∀ u ∈ pre, env.dict_lookup u s.msg_attr.local_ =
      LookupResult.notFound)
    (ht : env.dict_lookup t s.msg_attr.local_ = LookupResult.found w)
    (huid : dict_owner env t = 0) :
    ∀ call ∈ (deliver_alias env s ua).dispatched,
      call.2.1 = RESET_USER_ATTR env := by
  intro call hc
  rw [deliver_alias_found_eq env s ua pre t post w hfrom hlev hmaps hpre ht]
    at hc
  simp only [DeliverResult.dispatched] at hc
  exact alias_found_rights_of_dispatch env (expandedState s) ua t w huid
    call hc

/-- C8: on an alias match (with the source owner's identity resolvable),
the owner attribute of the state used for the resulting deliveries is
governed by the owner-redirection policy: when the policy is disabled it
is reset to no-owner; when enabled, the candidate `owner-` name is probed
through the same map chain, and the attribute is set to its canonicalized
address when found and reset explicitly (never inherited from a parent
expansion) when not found. -/
theorem owner_redirection_policy (env : Env) (s : LOCAL_STATE)
    (ua : UserAttr) (pre : List String) (t : String) (post : List String)
    (w : String)
    (hfrom : ∀ f, s.msg_attr.exp_from = some f →
      strcasecmp_eq f s.msg_attr.local_ = false)
    (hlev : s.level + 1 ≤ 100)
    (hmaps : env.var_alias_maps = pre ++ t :: post)
    (hpre : ∀ u ∈ pre, env.dict_lookup u s.msg_attr.local_ =
      LookupResult.notFound)
    (ht : env.dict_lookup t s.msg_attr.local_ = LookupResult.found w)
    (hown : dict_owner env t = 0 ∨
      (env.mypwuid (dict_owner env t)).isSome = true)
    (hprobe : env.var_ownreq_special = false ∨
      (maps_find env (concatenate "owner-" s.msg_attr.local_)
        env.var_alias_maps).1 ≠ LookupResult.err) :
    (deliver_alias env s ua).dispatched ≠ [] ∧
    ∀ call ∈ (deliver_alias env s ua).dispatched,
      call.1.msg_attr.owner =
        (if env.var_ownreq_special &&
            lookupIsFound (maps_find env
              (concatenate "owner-" s.msg_attr.local_)
              env.var_alias_maps).1
         then some (env.canon_addr_internal
              (concatenate "owner-" s.msg_attr.local_))
         else none) := by
  have heq := deliver_alias_found_eq env s ua pre t post w hfrom hlev hmaps
    hpre ht
  have hprobe2 : env.var_ownreq_special = false ∨
      (maps_find env (concatenate "owner-"
        (expandedState s).msg_attr.local_) env.var_alias_maps).1 ≠
        LookupResult.err := by
    simpa [expandedState] using hprobe
  constructor
  · obtain ⟨st', ua', h1, h2, h3⟩ := alias_found_fields env
      (expandedState s) ua t w hown hprobe2
    rw [heq]
    simp [h3]
  · intro call hc
    rw [heq] at hc
    simp only [DeliverResult.dispatched] at hc
    have h := alias_found_attr_of_dispatch env (expandedState s) ua t w
      call hc
    simpa [expandedState] using h

/-- C5 (amended): for the first source whose lookup of the local name
succeeds — provided the source owner's identity is resolvable (root-owned
or with an existing password entry) and the `owner-` probe does not
report a lookup error — `deliver_alias` passes that source's expansion
text to the delivery dispatcher exactly once on a state tagged
`exp_type = alias` with the delivered attribute set to the original
recipient, adopts the dispatcher's status, returns HANDLED, and consults
no source after the matching one for the local name.  (Without the two
provisos the expansion can instead be deferred before any dispatch, still
HANDLED, as the counterexample shows.) -/
theorem first_match_dispatch_once (env : Env) (s : LOCAL_STATE)
    (ua : UserAttr) (pre : List String) (t : String) (post : List String)
    (w : String)
    (hfrom : ∀ f, s.msg_attr.exp_from = some f →
      strcasecmp_eq f s.msg_attr.local_ = false)
    (hlev : s.level + 1 ≤ 100)
    (hmaps : env.var_alias_maps = pre ++ t :: post)
    (hpre : ∀ u ∈ pre, env.dict_lookup u s.msg_attr.local_ =
      LookupResult.notFound)
    (ht : env.dict_lookup t s.msg_attr.local_ = LookupResult.found w)
    (hown : dict_owner env t = 0 ∨
      (env.mypwuid (dict_owner env t)).isSome = true)
    (hprobe : env.var_ownreq_special = false ∨
      (maps_find env (concatenate "owner-" s.msg_attr.local_)
        env.var_alias_maps).1 ≠ LookupResult.err) :
    (deliver_alias env s ua).ret = true ∧
    (∃ st' ua',
      (deliver_alias env s ua).dispatched = [(st', ua', w)] ∧
      (deliver_alias env s ua).status =
        some (env.deliver_token_string st' ua' w) ∧
      st'.msg_attr.exp_type = ExpType.alias ∧
      st'.msg_attr.delivered = some s.msg_attr.recipient) ∧
    (∀ p ∈ (deliver_alias env s ua).consulted,
      p.2 = s.msg_attr.local_ → p.1 ∈ pre ++ [t]) := by
  have heq := deliver_alias_found_eq env s ua pre t post w hfrom hlev hmaps
    hpre ht
  have hprobe2 : env.var_ownreq_special = false ∨
      (maps_find env (concatenate "owner-"
        (expandedState s).msg_attr.local_) env.var_alias_maps).1 ≠
        LookupResult.err := by
    simpa [expandedState] using hprobe
  obtain ⟨st', ua', h1, h2, h3⟩ := alias_found_fields env (expandedState s)
    ua t w hown hprobe2
  have hmem : (st', ua', w) ∈
      (alias_found env (expandedState s) ua t w).dispatched := by
    rw [h3]; exact List.mem_singleton.mpr rfl
  have hdis := alias_found_dispatched env (expandedState s) ua t w _ hmem
  refine ⟨?_, ⟨st', ua', ?_, ?_, hdis.2.2.1, ?_⟩, ?_⟩
  · rw [heq]; simpa using h1
  · rw [heq]; simpa using h3
  · rw [heq]; simpa using h2
  · have h5 := hdis.2.2.2.2.1
    simpa [expandedState] using h5
  · intro p hp hkey
    rw [heq] at hp
    simp only [DeliverResult.consulted] at hp
    rcases List.mem_append.mp hp with hp1 | hp2
    · obtain ⟨u, hu, hup⟩ := List.mem_map.mp hp1
      have hpu : p.1 = u := by rw [← hup]
      rw [hpu]
      exact List.mem_append.mpr (Or.inl hu)
    · rcases List.mem_cons.mp hp2 with hp3 | hp4
      · rw [hp3]; simp
      · exfalso
        have hk := alias_found_consulted_key env (expandedState s) ua t w
          p hp4
        rw [hkey] at hk
        exact owner_name_ne s.msg_attr.local_
          (by simpa [expandedState] using hk.symm)

/-! Counterexamples and witnesses at the concrete fixtures. -/

/-- C1 (counterexample): at the recursion ceiling the recorded status is
produced by `bounce_append` (permanent failure), not by the deferred
(retryable) interface as the claim states, although the call is HANDLED
without consulting any alias source. -/
theorem loop_failure_not_deferred :
    (deliver_alias envNF stLoop uaX).ret = true ∧
    (deliver_alias envNF stLoop uaX).consulted = [] ∧
    (deliver_alias envNF stLoop uaX).status =
      some (DeliveryStatus.bounce_append BOUNCE_FLAG_KEEP attrX
        "possible alias database loop for x") ∧
    statusIsDeferredFlag (deliver_alias envNF stLoop uaX).status = false := by
  decide

/-- Witness for the amended C1 theorem at the concrete ceiling state. -/
theorem loop_failure_bounced_handled_witness :
    (100 < stLoop.level + 1) ∧
    deliver_alias envNF stLoop uaX =
      { ret := true,
        status := some (.bounce_append BOUNCE_FLAG_KEEP stLoop.msg_attr
          ("possible alias database loop for " ++ stLoop.msg_attr.local_)),
        dispatched := [], consulted := [] } :=
  ⟨by decide,
   loop_failure_bounced_handled envNF stLoop uaX
     (fun f hf => by simp [stLoop, attrX] at hf) (by decide)⟩

/-- Witness for the C2 theorem: source `a` misses, source `b` errors,
source `c` would match but is never consulted. -/
theorem lookup_error_defers_handled_witness :
    (envErr.var_alias_maps = ["a"] ++ "b" :: ["c"] ∧
     (∀ u ∈ ["a"], envErr.dict_lookup u stX.msg_attr.local_ =
       LookupResult.notFound) ∧
     envErr.dict_lookup "b" stX.msg_attr.local_ = LookupResult.err ∧
     envErr.dict_lookup "c" stX.msg_attr.local_ =
       LookupResult.found "late") ∧
    deliver_alias envErr stX uaX =
      { ret := true,
        status := some (.defer_append BOUNCE_FLAG_KEEP
          { stX.msg_attr with exp_from := some stX.msg_attr.local_ }
          "alias database unavailable"),
        dispatched := [],
        consulted := [("a", stX.msg_attr.local_),
          ("b", stX.msg_attr.local_)] } :=
  ⟨⟨by decide, by decide, by decide, by decide⟩,
   lookup_error_defers_handled envErr stX uaX ["a"] "b" ["c"]
     (fun f hf => by simp [stX, attrX] at hf) (by decide) (by decide)
     (by decide) (by decide)⟩

/-- Witness for the C3 theorem at the reserved name `Postmaster` with no
matching source. -/
theorem no_match_not_applicable_or_reserved_discard_witness :
    ((∀ u ∈ envNF.var_alias_maps, envNF.dict_lookup u stPM.msg_attr.local_ =
        LookupResult.notFound) ∧
     (strcasecmp_eq stPM.msg_attr.local_ MAIL_ADDR_MAIL_DAEMON
       || strcasecmp_eq stPM.msg_attr.local_ MAIL_ADDR_POSTMASTER) = true) ∧
    (((strcasecmp_eq stPM.msg_attr.local_ MAIL_ADDR_MAIL_DAEMON
        || strcasecmp_eq stPM.msg_attr.local_ MAIL_ADDR_POSTMASTER) = true →
      deliver_alias envNF stPM uaX =
        { ret := true,
          status := some (.sent
            { stPM.msg_attr with exp_from := some stPM.msg_attr.local_ }
            "discarded"),
          dispatched := [],
          consulted := envNF.var_alias_maps.map
            (fun u => (u, stPM.msg_attr.local_)) }) ∧
     ((strcasecmp_eq stPM.msg_attr.local_ MAIL_ADDR_MAIL_DAEMON
        || strcasecmp_eq stPM.msg_attr.local_ MAIL_ADDR_POSTMASTER) = false →
      deliver_alias envNF stPM uaX =
        { ret := false, status := none, dispatched := [],
          consulted := envNF.var_alias_maps.map
            (fun u => (u, stPM.msg_attr.local_)) })) :=
  ⟨⟨by decide, by decide⟩,
   no_match_not_applicable_or_reserved_discard envNF stPM uaX
     (fun f hf => by simp [stPM, attrX] at hf) (by decide) (by decide)⟩

/-- Witness for the C4 theorem: `exp_from = X` expanding local name `x`
at level 500 (well past the ceiling) still short-circuits to
NOT_APPLICABLE. -/
theorem self_reference_not_applicable_witness :
    (stSelf.msg_attr.exp_from = some "X" ∧
     strcasecmp_eq "X" stSelf.msg_attr.local_ = true) ∧
    deliver_alias envXX stSelf uaX =
      { ret := false, status := none, dispatched := [], consulted := [] } :=
  ⟨⟨by decide, by decide⟩,
   self_reference_not_applicable envXX stSelf uaX "X" (by decide)
     (by decide)⟩

/-- C5 (counterexample): the single source matches `x`, yet the delivery
dispatcher is never invoked — the expansion is deferred because the alias
database owner (uid 7) has no password entry — refuting the claim that a
first-source match always reaches the dispatcher exactly once with its
status adopted. -/
theorem matched_source_dispatch_can_fail :
    envC5.var_alias_maps = ["m"] ∧
    envC5.dict_lookup "m" stX.msg_attr.local_ = LookupResult.found "bob" ∧
    (deliver_alias envC5 stX uaX).ret = true ∧
    (deliver_alias envC5 stX uaX).dispatched = [] ∧
    statusIsDeferredFlag (deliver_alias envC5 stX uaX).status = true := by
  decide

/-- Witness for the amended C5 theorem in the owner-redirection
environment. -/
theorem first_match_dispatch_once_witness :
    (envOwn.var_alias_maps = [] ++ "m" :: [] ∧
     envOwn.dict_lookup "m" stX.msg_attr.local_ = LookupResult.found "bob" ∧
     dict_owner envOwn "m" = 0) ∧
    ((deliver_alias envOwn stX uaX).ret = true ∧
     (∃ st' ua',
       (deliver_alias envOwn stX uaX).dispatched = [(st', ua', "bob")] ∧
       (deliver_alias envOwn stX uaX).status =
         some (envOwn.deliver_token_string st' ua' "bob") ∧
       st'.msg_attr.exp_type = ExpType.alias ∧
       st'.msg_attr.delivered = some stX.msg_attr.recipient) ∧
     (∀ p ∈ (deliver_alias envOwn stX uaX).consulted,
       p.2 = stX.msg_attr.local_ → p.1 ∈ [] ++ ["m"])) :=
  ⟨⟨by decide, by decide, by decide⟩,
   first_match_dispatch_once envOwn stX uaX [] "m" [] "bob"
     (fun f hf => by simp [stX, attrX] at hf) (by decide) (by decide)
     (by decide) (by decide) (Or.inl (by decide)) (Or.inr (by decide))⟩

/-- Witness for the C6 theorem: the matching source is root-owned and the
single dispatched delivery carries the configured default rights. -/
theorem root_owned_source_default_rights_witness :
    (envXX.var_alias_maps = [] ++ "m" :: [] ∧
     envXX.dict_lookup "m" stX.msg_attr.local_ = LookupResult.found "x" ∧
     dict_owner envXX "m" = 0 ∧
     (deliver_alias envXX stX uaX).dispatched.length = 1) ∧
    (∀ call ∈ (deliver_alias envXX stX uaX).dispatched,
      call.2.1 = RESET_USER_ATTR envXX) :=
  ⟨⟨by decide, by decide, by decide, by decide⟩,
   root_owned_source_default_rights envXX stX uaX [] "m" [] "x"
     (fun f hf => by simp [stX, attrX] at hf) (by decide) (by decide)
     (by decide) (by decide) (by decide)⟩

/-- Witness for the C7 theorem: the matching source is owned by uid 7,
which has no password entry, so the expansion is deferred with no
dispatch. -/
theorem missing_owner_defers_no_dispatch_witness :
    (envC5.dict_lookup "m" stX.msg_attr.local_ = LookupResult.found "bob" ∧
     dict_owner envC5 "m" = 7 ∧
     envC5.mypwuid 7 = none) ∧
    deliver_alias envC5 stX uaX =
      { ret := true,
        status := some (.defer_append BOUNCE_FLAG_KEEP
          { stX.msg_attr with
            exp_from := some stX.msg_attr.local_,
            exp_type := ExpType.alias }
          "cannot find alias database owner"),
        dispatched := [],
        consulted := [("m", stX.msg_attr.local_)] } :=
  ⟨⟨by decide, by decide, by decide⟩,
   missing_owner_defers_no_dispatch envC5 stX uaX [] "m" [] "bob"
     (fun f hf => by simp [stX, attrX] at hf) (by decide) (by decide)
     (by decide) (by decide) (by decide) (by decide)⟩

/-- Witness for the C8 theorem: owner redirection enabled and `owner-x`
present, so the dispatched state carries the canonicalized owner. -/
theorem owner_redirection_policy_witness :
    (envOwn.var_ownreq_special = true ∧
     envOwn.dict_lookup "m" stX.msg_attr.local_ = LookupResult.found "bob" ∧
     (maps_find envOwn (concatenate "owner-" stX.msg_attr.local_)
       envOwn.var_alias_maps).1 = LookupResult.found "ownx") ∧
    ((deliver_alias envOwn stX uaX).dispatched ≠ [] ∧
     ∀ call ∈ (deliver_alias envOwn stX uaX).dispatched,
       call.1.msg_attr.owner =
         (if envOwn.var_ownreq_special &&
             lookupIsFound (maps_find envOwn
               (concatenate "owner-" stX.msg_attr.local_)
               envOwn.var_alias_maps).1
          then some (envOwn.canon_addr_internal
               (concatenate "owner-" stX.msg_attr.local_))
          else none)) :=
  ⟨⟨by decide, by decide, by decide⟩,
   owner_redirection_policy envOwn stX uaX [] "m" [] "bob"
     (fun f hf => by simp [stX, attrX] at hf) (by decide) (by decide)
     (by decide) (by decide) (Or.inl (by decide)) (Or.inr (by decide))⟩

/-- Witness for the C9 theorem at a concrete frame. -/
theorem state_by_value_frame_witness :
    ((deliver_alias_call envXX frameX).1.state = frameX.state ∧
     (deliver_alias_call envXX frameX).1.usr_attr = frameX.usr_attr) ∧
    (∀ call ∈ (deliver_alias envXX frameX.state frameX.usr_attr).dispatched,
      call.1.level = frameX.state.level + 1 ∧
      call.1.msg_attr.exp_from = some frameX.state.msg_attr.local_) :=
  state_by_value_frame envXX frameX

/-- Witness for the C10 theorem: with `exp_from` null and a self-alias
`x -> x`, the call proceeds into the scan and is HANDLED rather than
short-circuited. -/
theorem no_exp_from_skips_self_check_witness :
    (stX.msg_attr.exp_from = none ∧
     envXX.dict_lookup "m" stX.msg_attr.local_ = LookupResult.found "x" ∧
     (deliver_alias envXX stX uaX).ret = true) ∧
    deliver_alias envXX stX uaX =
      deliver_alias_checked envXX { stX with level := stX.level + 1 } uaX :=
  ⟨⟨by decide, by decide, by decide⟩,
   no_exp_from_skips_self_check envXX stX uaX (by decide)⟩

end Theorems

end LocalAlias
